import Mathlib

/-!
Shallow embedding of the Streamlit page `src/pages/01_chatgpt주가.py`.

The page holds a fixed catalog of ten (label, ticker) pairs, offers a
multi-select over the labels, and for a non-empty selection computes a
three-year date range, downloads one daily price table per selected label,
adds one plotly line trace per non-empty table (warning per empty one),
applies a fixed layout, and renders the figure.  An empty selection shows
an informational prompt instead.

Modelling choices:
* timestamps are integers in microseconds (`datetime` resolution);
  `timedelta(days = n)` is `n * usPerDay`;
* a downloaded DataFrame is the list of its rows, each row a
  `(date, closingPrice)` pair (the date index and the Close column, the
  only parts the page reads); `df.empty` is `List.isEmpty`;
* the fetch layer (`yf.download`) is a parameter.  It may either return a
  table or raise, so it is modelled as `String → Time → Time → Except Exn
  DataFrame`; a fetch that always returns is the image of a total function
  under `pureFetch`.  The page installs no exception handler, so a raised
  `Exn` aborts the pass;
* the Streamlit calls `st.warning`, `st.info`, `st.plotly_chart` and the
  abort status are collected in a `PassOutput` record.
-/

namespace StockApp

/-- A downloaded price table: one `(date, closingPrice)` row per trading
day, in date order — the date index and Close column of the DataFrame. -/
abbrev DataFrame := List (Int × Int)

/-- Timestamps in microseconds, the resolution of `datetime`. -/
abbrev Time := Int

/-- Microseconds per day. -/
def usPerDay : Int := 86400000000

/-- `timedelta(days = n)` as a duration in microseconds. -/
def timedeltaDays (n : Int) : Time := n * usPerDay

/-- An exception escaping the pass (provider fault, `KeyError`, …),
represented by its message. -/
abbrev Exn := String

/-- The catalog `top10_companies`, in source order. -/
def top10_companies : List (String × String) := [
  ("Apple (AAPL)", "AAPL"),
  ("Microsoft (MSFT)", "MSFT"),
  ("Alphabet (GOOGL)", "GOOGL"),
  ("Amazon (AMZN)", "AMZN"),
  ("NVIDIA (NVDA)", "NVDA"),
  ("Meta (META)", "META"),
  ("Berkshire Hathaway (BRK-B)", "BRK-B"),
  ("Eli Lilly (LLY)", "LLY"),
  ("Visa (V)", "V"),
  ("TSMC (TSM)", "TSM")]

/-- `list(top10_companies.keys())`: the labels, in catalog order. -/
def catalogLabels : List String := top10_companies.map Prod.fst

/-- The options passed to `st.multiselect`. -/
def multiselectOptions : List String := top10_companies.map Prod.fst

/-- The `default` argument of `st.multiselect`. -/
def multiselectDefault : List String := ["Apple (AAPL)", "Microsoft (MSFT)"]

/-- `top10_companies[name]` when the key is present, `""` otherwise (the
missing-key case raises a `KeyError` in `chartLoop` instead). -/
def tickerOf (l : String) : String := (top10_companies.lookup l).getD ""

/-- One plotly `go.Scatter` trace as the page constructs it. -/
structure Trace where
  x : List Int
  y : List Int
  mode : String
  name : String
deriving DecidableEq, Repr

/-- The layout fields set by `fig.update_layout`. -/
structure Layout where
  title : String
  xaxis_title : String
  yaxis_title : String
  hovermode : String
  template : String
deriving DecidableEq, Repr

/-- A plotly figure: trace list plus the layout once it has been set. -/
structure Figure where
  data : List Trace
  layout : Option Layout
deriving DecidableEq, Repr

/-- The f-string shown by `st.warning` for a label with no data. -/
def warnMsg (name : String) : String := name ++ "의 데이터를 불러올 수 없습니다."

/-- The `st.info` prompt shown for an empty selection. -/
def infoMsgText : String := "기업을 하나 이상 선택해주세요."

/-- The constant layout applied by `fig.update_layout`. -/
def fixedLayout : Layout :=
  { title := "최근 3년간 주가 비교 (종가 기준)",
    xaxis_title := "날짜",
    yaxis_title := "주가 ($)",
    hovermode := "x unified",
    template := "plotly_white" }

/-- `go.Scatter(x = df.index, y = df[Close], mode = lines, name = name)`. -/
def mkTrace (name : String) (df : DataFrame) : Trace :=
  { x := df.map Prod.fst, y := df.map Prod.snd, mode := "lines", name := name }

/-- The `KeyError` raised by `top10_companies[name]` on a missing key. -/
def keyError (name : String) : Exn := "KeyError: " ++ name

/-- The `for name in selected` loop: per label, look up the ticker, fetch,
and either append a trace or a warning.  Returns the traces added, the
warnings emitted, and the first uncaught exception if one was raised
(in which case the remaining labels were not processed). -/
def chartLoop (fetch : String → Time → Time → Except Exn DataFrame)
    (s e : Time) : List String → List Trace × List String × Option Exn
  | [] => ([], [], none)
  | name :: rest =>
      match top10_companies.lookup name with
      | none => ([], [], some (keyError name))
      | some ticker =>
        match fetch ticker s e with
        | .error ex => ([], [], some ex)
        | .ok df =>
          let out := chartLoop fetch s e rest
          if df.isEmpty then (out.1, warnMsg name :: out.2.1, out.2.2)
          else (mkTrace name df :: out.1, out.2.1, out.2.2)

/-- Everything one render pass surfaces: warnings shown, the info prompt if
shown, the figure passed to `st.plotly_chart` if reached, and the uncaught
exception if the pass aborted. -/
structure PassOutput where
  warnings : List String
  infoMsg : Option String
  fig : Option Figure
  exn : Option Exn
deriving DecidableEq, Repr

/-- `end_date = datetime.today(); start_date = end_date - timedelta(days=3*365)`:
the `(start, end)` pair as a function of the invocation time. -/
def currentRange (now : Time) : Time × Time := (now - timedeltaDays (3 * 365), now)

/-- One render pass of the page body below the multiselect: the
`if selected:` branch computes the range, runs the loop, applies the fixed
layout and renders; the `else` branch shows the info prompt.  An exception
raised in the loop aborts the pass before `update_layout`/`plotly_chart`
(warnings already emitted stay on the page). -/
def renderPass (fetch : String → Time → Time → Except Exn DataFrame)
    (now : Time) (selected : List String) : PassOutput :=
  if selected.isEmpty then
    { warnings := [], infoMsg := some infoMsgText, fig := none, exn := none }
  else
    let r := currentRange now
    let out := chartLoop fetch r.1 r.2 selected
    match out.2.2 with
    | some ex => { warnings := out.2.1, infoMsg := none, fig := none, exn := some ex }
    | none =>
      { warnings := out.2.1, infoMsg := none,
        fig := some { data := out.1, layout := some fixedLayout }, exn := none }

/-- A fetch layer that always returns (never raises), from a total
table-valued function. -/
def pureFetch (f : String → Time → Time → DataFrame) :
    String → Time → Time → Except Exn DataFrame :=
  fun t s e => .ok (f t s e)

/-- The series the pass fetches for label `l` at invocation time `now`,
given the total fetch function `f`. -/
def seriesOf (f : String → Time → Time → DataFrame) (now : Time) (l : String) :
    DataFrame := f (tickerOf l) (currentRange now).1 (currentRange now).2

/-- Every catalog label looks up to its ticker. -/
theorem lookup_eq_tickerOf :
    ∀ l ∈ catalogLabels, top10_companies.lookup l = some (tickerOf l) := by
  decide

/-- The traces a pass adds for `selected`, given a total fetch `f`: one per
label with a non-empty series, in selection order. -/
def tracesOf (f : String → Time → Time → DataFrame) (now : Time)
    (selected : List String) : List Trace :=
  selected.filterMap (fun l =>
    if (seriesOf f now l).isEmpty then none
    else some (mkTrace l (seriesOf f now l)))

/-- The warnings a pass emits for `selected`, given a total fetch `f`: one
per label with an empty series, in selection order. -/
def warningsOf (f : String → Time → Time → DataFrame) (now : Time)
    (selected : List String) : List String :=
  (selected.filter (fun l => (seriesOf f now l).isEmpty)).map warnMsg

/-- Distinct labels yield distinct warning messages. -/
theorem warnMsg_injective : Function.Injective warnMsg := by
  intro a b h
  have hd : a.data ++ ("의 데이터를 불러올 수 없습니다.").data =
      b.data ++ ("의 데이터를 불러올 수 없습니다.").data := by
    simpa [warnMsg, String.data_append] using congrArg String.data h
  exact String.ext (List.append_cancel_right hd)

/-- Characterization of the loop when every selected label is in the
catalog and the fetch layer never raises: traces are the non-empty series
in selection order, warnings the empty ones, and no exception occurs. -/
theorem chartLoop_pure (f : String → Time → Time → DataFrame) (now : Time) :
    ∀ selected : List String, (∀ l ∈ selected, l ∈ catalogLabels) →
    chartLoop (pureFetch f) (currentRange now).1 (currentRange now).2 selected =
      (tracesOf f now selected, warningsOf f now selected, none) := by
  intro selected
  induction selected with
  | nil => intro _; simp [chartLoop, tracesOf, warningsOf]
  | cons name rest ih =>
    intro hmem
    have hlk := lookup_eq_tickerOf name (hmem name (List.mem_cons_self _ _))
    have ihr := ih (fun l hl => hmem l (List.mem_cons_of_mem _ hl))
    by_cases hemp : seriesOf f now name = []
    · simp [chartLoop, hlk, pureFetch, ihr, tracesOf, warningsOf,
        List.filterMap_cons, List.filter_cons, seriesOf] at *
      simp [hemp]
    · simp [chartLoop, hlk, pureFetch, ihr, tracesOf, warningsOf,
        List.filterMap_cons, List.filter_cons, seriesOf] at *
      simp [hemp]

/-- Characterization of a whole pass on a non-empty catalog selection with
a non-raising fetch layer. -/
theorem renderPass_pure (f : String → Time → Time → DataFrame) (now : Time)
    (selected : List String) (hne : selected ≠ [])
    (hmem : ∀ l ∈ selected, l ∈ catalogLabels) :
    renderPass (pureFetch f) now selected =
      { warnings := warningsOf f now selected,
        infoMsg := none,
        fig := some { data := tracesOf f now selected, layout := some fixedLayout },
        exn := none } := by
  have hch := chartLoop_pure f now selected hmem
  have hne2 : selected.isEmpty = false := by
    cases selected with
    | nil => exact absurd rfl hne
    | cons a t => rfl
  simp [renderPass, hne2, hch]

/-- C2: for every pipeline execution the computed date range has
`end = today` and `start = end − 1095 days`, so `end − start` is exactly
1095 days whatever the invocation time. -/
theorem dateRange_always_1095_days (now : Time) :
    (currentRange now).2 = now ∧
    (currentRange now).1 = now - timedeltaDays 1095 ∧
    (currentRange now).2 - (currentRange now).1 = timedeltaDays 1095 := by
  refine ⟨rfl, ?_, ?_⟩ <;> norm_num [currentRange, timedeltaDays]

/-- C7: the multi-select offers exactly the catalog labels, and its default
selection is the first two labels in catalog order, namely
`Apple (AAPL)` and `Microsoft (MSFT)`. -/
theorem multiselect_options_default :
    multiselectOptions = catalogLabels ∧
    multiselectDefault = catalogLabels.take 2 ∧
    multiselectDefault = ["Apple (AAPL)", "Microsoft (MSFT)"] := by
  decide

/-- C9: the catalog is a constant with exactly 10 entries, pairwise
distinct non-empty labels and pairwise distinct non-empty tickers (being a
plain definition, nothing in the embedding can mutate it). -/
theorem catalog_invariants :
    top10_companies.length = 10 ∧
    (top10_companies.map Prod.fst).Nodup ∧
    (top10_companies.map Prod.snd).Nodup ∧
    top10_companies.all (fun p => !(p.1 == "") && !(p.2 == "")) = true := by
  decide

/-- C3: an empty selection produces no figure and shows the informational
prompt; a non-empty selection of catalog labels (with a fetch layer that
returns rather than raises) shows no prompt and renders a chart. -/
theorem empty_selection_prompt :
    (∀ fetch now,
      renderPass fetch now [] =
        { warnings := [], infoMsg := some infoMsgText, fig := none, exn := none }) ∧
    (∀ f now (selected : List String), selected ≠ [] →
      (∀ l ∈ selected, l ∈ catalogLabels) →
      (renderPass (pureFetch f) now selected).infoMsg = none ∧
      ∃ fig, (renderPass (pureFetch f) now selected).fig = some fig) := by
  constructor
  · intro fetch now; rfl
  · intro f now selected hne hmem
    rw [renderPass_pure f now selected hne hmem]
    exact ⟨rfl, { data := tracesOf f now selected, layout := some fixedLayout }, rfl⟩

/-- Witness for C3 at concrete inputs. -/
theorem empty_selection_prompt_witness :
    renderPass (pureFetch fun _ _ _ => []) 0 [] =
      { warnings := [], infoMsg := some infoMsgText, fig := none, exn := none } ∧
    ((renderPass (pureFetch fun _ _ _ => [(0, 1)]) 0 ["Apple (AAPL)"]).infoMsg = none ∧
      ∃ fig, (renderPass (pureFetch fun _ _ _ => [(0, 1)]) 0 ["Apple (AAPL)"]).fig = some fig) :=
  ⟨empty_selection_prompt.1 _ 0,
   empty_selection_prompt.2 _ 0 _ (by decide) (by decide)⟩

/-- The trace names are the selected labels with non-empty series, in
selection order. -/
theorem tracesOf_map_name (f : String → Time → Time → DataFrame) (now : Time) :
    ∀ selected : List String,
    (tracesOf f now selected).map Trace.name =
      selected.filter (fun l => !(seriesOf f now l).isEmpty) := by
  intro selected
  induction selected with
  | nil => rfl
  | cons name rest ih =>
    by_cases hemp : seriesOf f now name = []
    · simpa [tracesOf, List.filterMap_cons, List.filter_cons, hemp] using ih
    · simpa [tracesOf, List.filterMap_cons, List.filter_cons, hemp, mkTrace] using ih

/-- C1: for every non-empty selection of catalog labels (fetch layer
returning, not raising), the figure holds exactly one trace per selected
label whose fetched series is non-empty, named by that label; labels with
empty series contribute no trace. -/
theorem one_trace_per_nonempty_label (f : String → Time → Time → DataFrame)
    (now : Time) (selected : List String) (hne : selected ≠ [])
    (hmem : ∀ l ∈ selected, l ∈ catalogLabels) (hnd : selected.Nodup) :
    ∃ fig, (renderPass (pureFetch f) now selected).fig = some fig ∧
      fig.data.map Trace.name = selected.filter (fun l => !(seriesOf f now l).isEmpty) ∧
      (∀ l ∈ selected, (seriesOf f now l).isEmpty = false →
        (fig.data.map Trace.name).count l = 1) ∧
      (∀ l ∈ selected, (seriesOf f now l).isEmpty = true →
        l ∉ fig.data.map Trace.name) := by
  refine ⟨{ data := tracesOf f now selected, layout := some fixedLayout },
    ?_, tracesOf_map_name f now selected, ?_, ?_⟩
  · rw [renderPass_pure f now selected hne hmem]
  · intro l hl hfull
    rw [tracesOf_map_name]
    have hmemf : l ∈ selected.filter (fun l => !(seriesOf f now l).isEmpty) :=
      List.mem_filter.2 ⟨hl, by simp [hfull]⟩
    exact List.count_eq_one_of_mem (hnd.filter _) hmemf
  · intro l hl hemp
    rw [tracesOf_map_name]
    intro hcontra
    have := (List.mem_filter.1 hcontra).2
    simp [hemp] at this

/-- Witness for C1: Apple returns one row, TSMC an empty table. -/
theorem one_trace_per_nonempty_label_witness :
    ∃ fig, (renderPass (pureFetch (fun t _ _ => if t == "TSM" then [] else [(0, 1)])) 0
        ["Apple (AAPL)", "TSMC (TSM)"]).fig = some fig ∧
      fig.data.map Trace.name =
        (["Apple (AAPL)", "TSMC (TSM)"].filter
          (fun l => !(seriesOf (fun t _ _ => if t == "TSM" then [] else [(0, 1)]) 0 l).isEmpty)) ∧
      (∀ l ∈ ["Apple (AAPL)", "TSMC (TSM)"],
        (seriesOf (fun t _ _ => if t == "TSM" then [] else [(0, 1)]) 0 l).isEmpty = false →
        (fig.data.map Trace.name).count l = 1) ∧
      (∀ l ∈ ["Apple (AAPL)", "TSMC (TSM)"],
        (seriesOf (fun t _ _ => if t == "TSM" then [] else [(0, 1)]) 0 l).isEmpty = true →
        l ∉ fig.data.map Trace.name) :=
  one_trace_per_nonempty_label _ 0 _ (by decide) (by decide) (by decide)

/-- C10: traces appear in selection order — the figure's trace list is the
selection's non-empty-series sublist in order — and each trace takes its x
values from the fetched table's date index and its y values from its
closing-price column. -/
theorem trace_order_and_contents (f : String → Time → Time → DataFrame)
    (now : Time) (selected : List String) (hne : selected ≠ [])
    (hmem : ∀ l ∈ selected, l ∈ catalogLabels) :
    ∃ fig, (renderPass (pureFetch f) now selected).fig = some fig ∧
      fig.data = tracesOf f now selected ∧
      fig.data.map Trace.name = selected.filter (fun l => !(seriesOf f now l).isEmpty) ∧
      ∀ t ∈ fig.data, t.x = (seriesOf f now t.name).map Prod.fst ∧
        t.y = (seriesOf f now t.name).map Prod.snd := by
  refine ⟨{ data := tracesOf f now selected, layout := some fixedLayout },
    ?_, rfl, tracesOf_map_name f now selected, ?_⟩
  · rw [renderPass_pure f now selected hne hmem]
  · intro t ht
    obtain ⟨l, hl, hg⟩ := List.mem_filterMap.1 ht
    by_cases hemp : (seriesOf f now l).isEmpty
    · simp [hemp] at hg
    · simp [hemp] at hg
      rw [← hg]
      simp [mkTrace]

/-- Witness for C10 at the same style of concrete input. -/
theorem trace_order_and_contents_witness :
    ∃ fig, (renderPass (pureFetch (fun _ _ _ => [(3, 7), (4, 8)])) 5
        ["Microsoft (MSFT)", "Visa (V)"]).fig = some fig ∧
      fig.data = tracesOf (fun _ _ _ => [(3, 7), (4, 8)]) 5 ["Microsoft (MSFT)", "Visa (V)"] ∧
      fig.data.map Trace.name =
        (["Microsoft (MSFT)", "Visa (V)"].filter
          (fun l => !(seriesOf (fun _ _ _ => [(3, 7), (4, 8)]) 5 l).isEmpty)) ∧
      ∀ t ∈ fig.data, t.x = (seriesOf (fun _ _ _ => [(3, 7), (4, 8)]) 5 t.name).map Prod.fst ∧
        t.y = (seriesOf (fun _ _ _ => [(3, 7), (4, 8)]) 5 t.name).map Prod.snd :=
  trace_order_and_contents _ 5 _ (by decide) (by decide)

/-- C4: a selected label whose fetch returns an empty series gets exactly
one warning naming it, contributes no trace, and does not abort the
processing of the other selected labels (their warnings and traces still
appear). -/
theorem empty_series_one_warning (f : String → Time → Time → DataFrame)
    (now : Time) (selected : List String) (l : String)
    (hmem : ∀ x ∈ selected, x ∈ catalogLabels) (hnd : selected.Nodup)
    (hl : l ∈ selected) (hempty : (seriesOf f now l).isEmpty = true) :
    (renderPass (pureFetch f) now selected).warnings.count (warnMsg l) = 1 ∧
    (∃ fig, (renderPass (pureFetch f) now selected).fig = some fig ∧
      l ∉ fig.data.map Trace.name) ∧
    (renderPass (pureFetch f) now selected).exn = none ∧
    (∀ x ∈ selected, (seriesOf f now x).isEmpty = true →
      warnMsg x ∈ (renderPass (pureFetch f) now selected).warnings) ∧
    (∀ x ∈ selected, (seriesOf f now x).isEmpty = false →
      ∃ fig, (renderPass (pureFetch f) now selected).fig = some fig ∧
        x ∈ fig.data.map Trace.name) := by
  have hne : selected ≠ [] := List.ne_nil_of_mem hl
  rw [renderPass_pure f now selected hne hmem]
  refine ⟨?_, ?_, rfl, ?_, ?_⟩
  · show (warningsOf f now selected).count (warnMsg l) = 1
    unfold warningsOf
    rw [List.count_map_of_injective _ warnMsg warnMsg_injective]
    exact List.count_eq_one_of_mem (hnd.filter _)
      (List.mem_filter.2 ⟨hl, by simp [hempty]⟩)
  · refine ⟨_, rfl, ?_⟩
    rw [tracesOf_map_name]
    intro hcontra
    have := (List.mem_filter.1 hcontra).2
    simp [hempty] at this
  · intro x hx hex
    show warnMsg x ∈ warningsOf f now selected
    exact List.mem_map_of_mem warnMsg (List.mem_filter.2 ⟨hx, by simp [hex]⟩)
  · intro x hx hfull
    refine ⟨_, rfl, ?_⟩
    rw [tracesOf_map_name]
    exact List.mem_filter.2 ⟨hx, by simp [hfull]⟩

/-- Witness for C4: TSMC fetches empty, Apple does not. -/
theorem empty_series_one_warning_witness :
    (renderPass (pureFetch (fun t _ _ => if t == "TSM" then [] else [(0, 2)])) 0
        ["Apple (AAPL)", "TSMC (TSM)"]).warnings.count (warnMsg "TSMC (TSM)") = 1 ∧
    (∃ fig, (renderPass (pureFetch (fun t _ _ => if t == "TSM" then [] else [(0, 2)])) 0
        ["Apple (AAPL)", "TSMC (TSM)"]).fig = some fig ∧
      "TSMC (TSM)" ∉ fig.data.map Trace.name) ∧
    (renderPass (pureFetch (fun t _ _ => if t == "TSM" then [] else [(0, 2)])) 0
        ["Apple (AAPL)", "TSMC (TSM)"]).exn = none ∧
    (∀ x ∈ ["Apple (AAPL)", "TSMC (TSM)"],
      (seriesOf (fun t _ _ => if t == "TSM" then [] else [(0, 2)]) 0 x).isEmpty = true →
      warnMsg x ∈ (renderPass (pureFetch (fun t _ _ => if t == "TSM" then [] else [(0, 2)])) 0
        ["Apple (AAPL)", "TSMC (TSM)"]).warnings) ∧
    (∀ x ∈ ["Apple (AAPL)", "TSMC (TSM)"],
      (seriesOf (fun t _ _ => if t == "TSM" then [] else [(0, 2)]) 0 x).isEmpty = false →
      ∃ fig, (renderPass (pureFetch (fun t _ _ => if t == "TSM" then [] else [(0, 2)])) 0
        ["Apple (AAPL)", "TSMC (TSM)"]).fig = some fig ∧
        x ∈ fig.data.map Trace.name) :=
  empty_series_one_warning _ 0 _ "TSMC (TSM)" (by decide) (by decide) (by decide) (by decide)

/-- C5: a pass is a deterministic, stateless function of the selection, the
invocation time, and the fetch results on the selected tickers: two fetch
layers agreeing on those calls give identical pass outputs (hence the same
trace count, trace names in the same order, and point counts). -/
theorem pass_deterministic (f₁ f₂ : String → Time → Time → DataFrame)
    (now : Time) (selected : List String)
    (h : ∀ l ∈ selected,
      f₁ (tickerOf l) (currentRange now).1 (currentRange now).2 =
      f₂ (tickerOf l) (currentRange now).1 (currentRange now).2) :
    renderPass (pureFetch f₁) now selected = renderPass (pureFetch f₂) now selected := by
  have hloop : ∀ sel : List String, (∀ l ∈ sel,
      f₁ (tickerOf l) (currentRange now).1 (currentRange now).2 =
      f₂ (tickerOf l) (currentRange now).1 (currentRange now).2) →
      chartLoop (pureFetch f₁) (currentRange now).1 (currentRange now).2 sel =
      chartLoop (pureFetch f₂) (currentRange now).1 (currentRange now).2 sel := by
    intro sel
    induction sel with
    | nil => intro _; rfl
    | cons name rest ih =>
      intro hsel
      have hhead := hsel name (List.mem_cons_self _ _)
      have ihr := ih (fun l hl => hsel l (List.mem_cons_of_mem _ hl))
      cases hlk : top10_companies.lookup name with
      | none => simp [chartLoop, hlk]
      | some ticker =>
        have ht : tickerOf name = ticker := by simp [tickerOf, hlk]
        simp [chartLoop, hlk, pureFetch, ← ht, hhead, ihr]
  by_cases hne : selected.isEmpty
  · simp [renderPass, hne]
  · simp [renderPass, hne, hloop selected h]

/-- Witness for C5 with two syntactically different but agreeing fetches. -/
theorem pass_deterministic_witness :
    renderPass (pureFetch (fun _ _ _ => [(0, 5)])) 0 ["Apple (AAPL)"] =
    renderPass (pureFetch (fun _ _ _ => [(0, 2 + 3)])) 0 ["Apple (AAPL)"] :=
  pass_deterministic _ _ 0 _ (by decide)

/-- Counterexample for C6 as stated: on a concrete run the finalized
figure's layout title is the Korean source string, not the English string
"3-year closing-price comparison" the claim quotes. -/
theorem fixed_layout_title_counterexample :
    ((renderPass (pureFetch (fun _ _ _ => [(0, 1)])) 0 ["Apple (AAPL)"]).fig.map
      Figure.layout) = some (some fixedLayout) ∧
    fixedLayout.title ≠ "3-year closing-price comparison" := by
  exact ⟨rfl, by decide⟩

/-- C6 (amended): the finalized figure's layout is one fixed constant —
title `최근 3년간 주가 비교 (종가 기준)` (Korean for "3-year closing-price
comparison, closing basis"), axis titles, hovermode `x unified`, light
template `plotly_white` — identically for every non-empty selection. -/
theorem fixed_layout_applied (f : String → Time → Time → DataFrame)
    (now : Time) (selected : List String) (hne : selected ≠ [])
    (hmem : ∀ l ∈ selected, l ∈ catalogLabels) :
    ∃ fig, (renderPass (pureFetch f) now selected).fig = some fig ∧
      fig.layout = some fixedLayout ∧
      fixedLayout.title = "최근 3년간 주가 비교 (종가 기준)" ∧
      fixedLayout.xaxis_title = "날짜" ∧
      fixedLayout.yaxis_title = "주가 ($)" ∧
      fixedLayout.hovermode = "x unified" ∧
      fixedLayout.template = "plotly_white" := by
  refine ⟨{ data := tracesOf f now selected, layout := some fixedLayout },
    ?_, rfl, rfl, rfl, rfl, rfl, rfl⟩
  rw [renderPass_pure f now selected hne hmem]

/-- Witness for the amended C6. -/
theorem fixed_layout_applied_witness :
    ∃ fig, (renderPass (pureFetch (fun _ _ _ => [])) 9 ["Visa (V)"]).fig = some fig ∧
      fig.layout = some fixedLayout ∧
      fixedLayout.title = "최근 3년간 주가 비교 (종가 기준)" ∧
      fixedLayout.xaxis_title = "날짜" ∧
      fixedLayout.yaxis_title = "주가 ($)" ∧
      fixedLayout.hovermode = "x unified" ∧
      fixedLayout.template = "plotly_white" :=
  fixed_layout_applied _ 9 _ (by decide) (by decide)

/-- If the fetch of label `l` raises after every label of `pre` fetched
without raising, the loop stops at `l` with that exception, and every
warning it emitted belongs to a label of `pre`. -/
theorem chartLoop_error (fetch : String → Time → Time → Except Exn DataFrame)
    (now : Time) (l : String) (ex : Exn) (hlmem : l ∈ catalogLabels)
    (hraise : fetch (tickerOf l) (currentRange now).1 (currentRange now).2 =
      Except.error ex) :
    ∀ pre : List String, (∀ x ∈ pre, x ∈ catalogLabels) →
    (∀ x ∈ pre, ∃ df,
      fetch (tickerOf x) (currentRange now).1 (currentRange now).2 = Except.ok df) →
    ∀ post : List String,
    ∃ ts ws, chartLoop fetch (currentRange now).1 (currentRange now).2 (pre ++ l :: post) =
      (ts, ws, some ex) ∧ ∀ w ∈ ws, ∃ x ∈ pre, w = warnMsg x := by
  intro pre
  induction pre with
  | nil =>
    intro _ _ post
    have hlk := lookup_eq_tickerOf l hlmem
    refine ⟨[], [], ?_, by simp⟩
    simp [chartLoop, hlk, hraise]
  | cons a rest ih =>
    intro hmem hok post
    have hlk := lookup_eq_tickerOf a (hmem a (List.mem_cons_self _ _))
    obtain ⟨df, hdf⟩ := hok a (List.mem_cons_self _ _)
    obtain ⟨ts, ws, hloop, hws⟩ := ih (fun x hx => hmem x (List.mem_cons_of_mem _ hx))
      (fun x hx => hok x (List.mem_cons_of_mem _ hx)) post
    by_cases hemp : df.isEmpty
    · refine ⟨ts, warnMsg a :: ws, ?_, ?_⟩
      · simp [chartLoop, hlk, hdf, hemp, hloop]
      · intro w hw
        cases List.mem_cons.1 hw with
        | inl h => exact ⟨a, List.mem_cons_self _ _, h⟩
        | inr h =>
          obtain ⟨x, hx, hwx⟩ := hws w h
          exact ⟨x, List.mem_cons_of_mem _ hx, hwx⟩
    · refine ⟨mkTrace a df :: ts, ws, ?_, ?_⟩
      · simp [chartLoop, hlk, hdf, hemp, hloop]
      · intro w hw
        obtain ⟨x, hx, hwx⟩ := hws w hw
        exact ⟨x, List.mem_cons_of_mem _ hx, hwx⟩

/-- C8: the page installs no handler, so a fetch that raises on label `l`
(after the labels of `pre` fetched without raising) aborts the pass: the
exception escapes, no figure and no prompt are rendered, every warning
shown belongs to `pre`, no warning names `l`, and no label of `post` is
processed. -/
theorem fetch_raise_aborts_pass (fetch : String → Time → Time → Except Exn DataFrame)
    (now : Time) (pre post : List String) (l : String) (ex : Exn)
    (hmem : ∀ x ∈ pre, x ∈ catalogLabels) (hlmem : l ∈ catalogLabels)
    (hok : ∀ x ∈ pre, ∃ df,
      fetch (tickerOf x) (currentRange now).1 (currentRange now).2 = Except.ok df)
    (hraise : fetch (tickerOf l) (currentRange now).1 (currentRange now).2 =
      Except.error ex)
    (hnd : (pre ++ l :: post).Nodup) :
    (renderPass fetch now (pre ++ l :: post)).exn = some ex ∧
    (renderPass fetch now (pre ++ l :: post)).fig = none ∧
    (renderPass fetch now (pre ++ l :: post)).infoMsg = none ∧
    (∀ w ∈ (renderPass fetch now (pre ++ l :: post)).warnings, ∃ x ∈ pre, w = warnMsg x) ∧
    warnMsg l ∉ (renderPass fetch now (pre ++ l :: post)).warnings ∧
    ∀ x ∈ post, warnMsg x ∉ (renderPass fetch now (pre ++ l :: post)).warnings := by
  obtain ⟨ts, ws, hloop, hws⟩ := chartLoop_error fetch now l ex hlmem hraise pre hmem hok post
  have hdisj : pre.Disjoint (l :: post) := ((List.nodup_append).1 hnd).2.2
  have hne : (pre ++ l :: post).isEmpty = false := by
    cases pre with
    | nil => rfl
    | cons a t => rfl
  have hrp : renderPass fetch now (pre ++ l :: post) =
      { warnings := ws, infoMsg := none, fig := none, exn := some ex } := by
    simp [renderPass, hne, hloop]
  rw [hrp]
  refine ⟨rfl, rfl, rfl, hws, ?_, ?_⟩
  · intro hcontra
    obtain ⟨x, hx, hwx⟩ := hws _ hcontra
    have hxl : l = x := warnMsg_injective hwx
    exact hdisj (hxl ▸ hx) (List.mem_cons_self _ _)
  · intro x hx hcontra
    obtain ⟨y, hy, hwy⟩ := hws _ hcontra
    have hyx : x = y := warnMsg_injective hwy
    exact hdisj (hyx ▸ hy) (List.mem_cons_of_mem _ hx)

/-- Witness for C8: Apple fetches one row, the fetch of Microsoft raises,
NVIDIA comes after. -/
theorem fetch_raise_aborts_pass_witness :
    (renderPass (fun t _ _ => if t == "AAPL" then Except.ok [(0, 1)] else Except.error "boom")
      0 (["Apple (AAPL)"] ++ "Microsoft (MSFT)" :: ["NVIDIA (NVDA)"])).exn = some "boom" ∧
    (renderPass (fun t _ _ => if t == "AAPL" then Except.ok [(0, 1)] else Except.error "boom")
      0 (["Apple (AAPL)"] ++ "Microsoft (MSFT)" :: ["NVIDIA (NVDA)"])).fig = none ∧
    (renderPass (fun t _ _ => if t == "AAPL" then Except.ok [(0, 1)] else Except.error "boom")
      0 (["Apple (AAPL)"] ++ "Microsoft (MSFT)" :: ["NVIDIA (NVDA)"])).infoMsg = none ∧
    (∀ w ∈ (renderPass (fun t _ _ => if t == "AAPL" then Except.ok [(0, 1)] else Except.error "boom")
      0 (["Apple (AAPL)"] ++ "Microsoft (MSFT)" :: ["NVIDIA (NVDA)"])).warnings,
      ∃ x ∈ ["Apple (AAPL)"], w = warnMsg x) ∧
    warnMsg "Microsoft (MSFT)" ∉
      (renderPass (fun t _ _ => if t == "AAPL" then Except.ok [(0, 1)] else Except.error "boom")
        0 (["Apple (AAPL)"] ++ "Microsoft (MSFT)" :: ["NVIDIA (NVDA)"])).warnings ∧
    ∀ x ∈ ["NVIDIA (NVDA)"], warnMsg x ∉
      (renderPass (fun t _ _ => if t == "AAPL" then Except.ok [(0, 1)] else Except.error "boom")
        0 (["Apple (AAPL)"] ++ "Microsoft (MSFT)" :: ["NVIDIA (NVDA)"])).warnings :=
  fetch_raise_aborts_pass _ 0 _ _ "Microsoft (MSFT)" "boom"
    (by decide) (by decide)
    (by
      intro x hx
      have hxa : x = "Apple (AAPL)" := by simpa using hx
      subst hxa
      exact ⟨[(0, 1)], rfl⟩)
    rfl (by decide)

end StockApp
